import Mathlib

/-!
Shallow embedding of `final_code.py` (OpenMV aiming-device vision controller,
V1.9) and proofs about its candidate validator, geometry helpers, trajectory
generator, protocol encoder and command state machine.

Conventions of the embedding:
* Pixel quantities reported by the external detector (`blob.rect()`,
  `blob.area()`, `blob.perimeter()`) are natural numbers.
* Python float arithmetic is modelled by exact rational arithmetic (`ℚ`).
  The float constant `math.pi` is modelled by `mathPi`, the exact rational
  value of the IEEE-754 double `math.pi = 884279719003555 / 2^48`.
* Python `int(q)` (truncation toward zero) is `pyInt`, Python `//` on
  integers (floor division) is `Int.fdiv`, Python `%` on integers with a
  positive modulus is `Int.emod` (Lean's `%` on `ℤ`), and Python float `%`
  is `qmod`.
* `time.ticks_ms()` values are natural-number millisecond timestamps and
  `time.ticks_diff` is `tdiff` (exact signed difference; the program's
  timestamps are monotonic, below any wraparound).
* `math.cos` / `math.sin` are abstract parameters `qcos qsin : ℚ → ℚ`;
  no claim depends on their values.
-/

namespace FinalCode

/-- Exact rational value of the IEEE-754 double `math.pi` used by the source. -/
def mathPi : ℚ := 884279719003555 / 281474976710656

/-- Python `int()` on a rational: truncation toward zero. -/
def pyInt (q : ℚ) : ℤ := if 0 ≤ q then ⌊q⌋ else ⌈q⌉

/-- Python float `%` (used at `current_angle % (2*math.pi)`): `x - m*⌊x/m⌋`. -/
def qmod (x m : ℚ) : ℚ := x - m * ⌊x / m⌋

/-- `time.ticks_diff(a, b)` for monotonic (non-wrapping) tick values. -/
def tdiff (a b : ℕ) : ℤ := (a : ℤ) - (b : ℤ)

/-- `STANDARD_SEND_INTERVAL_MS = 30` (line 38). -/
def STANDARD_SEND_INTERVAL_MS : ℕ := 30

/-- `CIRCLE_SEND_INTERVAL_MS = 50` (line 39). -/
def CIRCLE_SEND_INTERVAL_MS : ℕ := 50

/-- `SCREEN_WIDTH = 240` (line 45). -/
def SCREEN_WIDTH : ℕ := 240

/-- `SCREEN_HEIGHT = 160` (line 45). -/
def SCREEN_HEIGHT : ℕ := 160

/-- `SCREEN_CENTER_X = SCREEN_WIDTH // 2` (line 46). -/
def SCREEN_CENTER_X : ℤ := (SCREEN_WIDTH : ℤ).fdiv 2

/-- `SCREEN_CENTER_Y = SCREEN_HEIGHT // 2` (line 46). -/
def SCREEN_CENTER_Y : ℤ := (SCREEN_HEIGHT : ℤ).fdiv 2

/-- `target_circle_time = 15000` ms per revolution (line 56). -/
def target_circle_time : ℕ := 15000

/-- `smooth_factor = 0.7` (line 58). -/
def smooth_factor : ℚ := 0.7

/-- `STATE_IDLE = 0` (line 67). -/
def STATE_IDLE : ℕ := 0

/-- `STATE_AIM_BULLSEYE = 1` (line 68). -/
def STATE_AIM_BULLSEYE : ℕ := 1

/-- `STATE_CIRCLE_TRACKING = 2` (line 69). -/
def STATE_CIRCLE_TRACKING : ℕ := 2

/-- Command byte `0xA1` (line 72). -/
def CMD_AIM_BULLSEYE : ℕ := 0xA1

/-- Command byte `0xA2` (line 73). -/
def CMD_CIRCLE_TRACKING : ℕ := 0xA2

/-- Command byte `0xA3` (line 74). -/
def CMD_IDLE : ℕ := 0xA3

/-- `TARGET_LOCKED_HEADER = b'\x3C\x3B'` (line 84). -/
def TARGET_LOCKED_HEADER : List ℕ := [0x3C, 0x3B]

/-- `TARGET_LOCKED_FOOTER = b'\x01\x01'` (line 85). -/
def TARGET_LOCKED_FOOTER : List ℕ := [0x01, 0x01]

/-- One candidate region from `img.find_blobs`: bounding rectangle
`blob.rect()`, filled pixel count `blob.area()` and `blob.perimeter()`. -/
structure Blob where
  rect_x : ℕ
  rect_y : ℕ
  rect_w : ℕ
  rect_h : ℕ
  pixels : ℕ
  perimeter : ℕ
deriving DecidableEq, Repr

/-- `rect_area = rect_w * rect_h` (line 135). -/
def Blob.rect_area (b : Blob) : ℕ := b.rect_w * b.rect_h

/-- The per-blob acceptance test of `find_target_boundary_rect`
(lines 126-149): degenerate rejection, edge-touching rejection (V1.8),
over-large high-density rejection (V1.6), then the combined aspect-ratio /
area-window / shape-factor test. -/
def blob_accepted (b : Blob) : Bool :=
  if b.rect_w = 0 ∨ b.rect_h = 0 then false
  else if b.rect_x = 0 ∨ b.rect_y = 0 ∨
      SCREEN_WIDTH ≤ b.rect_x + b.rect_w ∨ SCREEN_HEIGHT ≤ b.rect_y + b.rect_h then false
  else
    let density : ℚ := if 0 < b.rect_area then (b.pixels : ℚ) / (b.rect_area : ℚ) else 0
    let is_very_large : Prop := (SCREEN_WIDTH * SCREEN_HEIGHT : ℚ) * 0.75 < (b.rect_area : ℚ)
    if is_very_large ∧ (0.6 : ℚ) < density then false
    else
      let aspect_ratio : ℚ := (max b.rect_w b.rect_h : ℚ) / (min b.rect_w b.rect_h : ℚ)
      let shape_factor : ℚ :=
        if 0 < b.pixels then (b.perimeter : ℚ) ^ 2 / (4 * mathPi * (b.pixels : ℚ)) else 0
      decide (aspect_ratio < 4 ∧ 1000 < (b.rect_area : ℚ) ∧
        (b.rect_area : ℚ) < (SCREEN_WIDTH * SCREEN_HEIGHT : ℚ) * 0.95 ∧
        (1.1 : ℚ) < shape_factor)

/-- One comparison step of Python `max(..., key=lambda x: x[1])`: the
current best is replaced only by a strictly larger rectangle area. -/
def py_max_step (best x : Blob) : Blob :=
  if best.rect_area < x.rect_area then x else best

/-- Python `max(candidates, key=lambda x: x[1])` over a nonempty candidate
list: a left fold of `py_max_step`, so the first-found candidate is kept on
ties (line 154). -/
def py_max_by_area (c : Blob) (cs : List Blob) : Blob :=
  cs.foldl py_max_step c

/-- `find_target_boundary_rect` (lines 116-157), with the external
`img.find_blobs` result supplied as the input list. Returns `none` when no
blob passes the filters, otherwise the maximum-area accepted blob. -/
def find_target_boundary_rect (blobs : List Blob) : Option Blob :=
  match blobs.filter blob_accepted with
  | [] => none
  | c :: cs => some (py_max_by_area c cs)

/-- `get_approximate_corners` (lines 159-167): the four axis-aligned corners
`[(x,y), (x+w,y), (x+w,y+h), (x,y+h)]` of the bounding rectangle. -/
def get_approximate_corners (x y w h : ℤ) : List (ℤ × ℤ) :=
  [(x, y), (x + w, y), (x + w, y + h), (x, y + h)]

/-- `calculate_perspective_correction` (lines 169-190): diagonal intersection
of the corner quad by the two-line-intersection formula, falling back to the
integer centroid when the determinant `d` is zero, and to the screen center
when the corner list is `None` or not of length 4. -/
def calculate_perspective_correction : Option (List (ℤ × ℤ)) → ℤ × ℤ
  | none => (SCREEN_CENTER_X, SCREEN_CENTER_Y)
  | some [(xa, ya), (xb, yb), (xc, yc), (xd, yd)] =>
    let simple_center_x : ℤ := (xa + xb + xc + xd).fdiv 4
    let simple_center_y : ℤ := (ya + yb + yc + yd).fdiv 4
    let x1 := xa; let y1 := ya
    let x2 := xc; let y2 := yc
    let x3 := xb; let y3 := yb
    let x4 := xd; let y4 := yd
    let d : ℤ := (x1 - x2) * (y3 - y4) - (y1 - y2) * (x3 - x4)
    if d = 0 then (simple_center_x, simple_center_y)
    else
      let px : ℚ :=
        (((x1 * y2 - y1 * x2) * (x3 - x4) - (x1 - x2) * (x3 * y4 - y3 * x4) : ℤ) : ℚ) / (d : ℚ)
      let py : ℚ :=
        (((x1 * y2 - y1 * x2) * (y3 - y4) - (y1 - y2) * (x3 * y4 - y3 * x4) : ℤ) : ℚ) / (d : ℚ)
      (pyInt px, pyInt py)
  | some _ => (SCREEN_CENTER_X, SCREEN_CENTER_Y)

/-- `calculate_circle_params` (lines 192-202): `(30, 20)` on `None` or
non-positive dimensions, else `(0, max 3 (int (rect_height * 0.2891)))`. -/
def calculate_circle_params (rect_width rect_height : Option ℤ) : ℤ × ℤ :=
  match rect_width, rect_height with
  | some w, some h =>
    if w ≤ 0 ∨ h ≤ 0 then (30, 20)
    else (0, max 3 (pyInt ((h : ℚ) * 0.2891)))
  | _, _ => (30, 20)

/-- The module-level mutable globals of the program: the send gate
(lines 40-41), the circle-scan state (lines 54-57) and the main-loop mode
variable `current_state` (line 312). -/
structure GState where
  current_send_interval_ms : ℕ
  last_uart_send_time : ℕ
  current_angle : ℚ
  circle_start_time : Option ℕ
  last_target_point : Option (ℤ × ℤ)
  current_state : ℕ
deriving DecidableEq, Repr

/-- The wrap of `angle_diff` into `[-π, π]` (lines 262-263): subtract `2π`
if greater than `π`, add `2π` if less than `-π`. -/
def wrap_angle_diff (d : ℚ) : ℚ :=
  if mathPi < d then d - 2 * mathPi
  else if d < -mathPi then d + 2 * mathPi
  else d

/-- The phase advance of lines 261-264: wrap the signed difference, move the
current angle by `0.3` of it, and reduce modulo `2π`. -/
def advance_angle (ideal_angle current_angle : ℚ) : ℚ :=
  qmod (current_angle + wrap_angle_diff (ideal_angle - current_angle) * 0.3) (2 * mathPi)

/-- `get_ellipse_point` (lines 228-240), with `math.cos` / `math.sin`
abstracted as `qcos` / `qsin`. -/
def get_ellipse_point (qcos qsin : ℚ → ℚ) (center_x center_y : ℤ) (a b : ℚ)
    (angle rotation : ℚ) : ℤ × ℤ :=
  let a2 : ℤ := max 1 (pyInt a)
  let b2 : ℤ := max 1 (pyInt b)
  let x : ℚ := (a2 : ℚ) * qcos angle
  let y : ℚ := (b2 : ℚ) * qsin angle
  let rotated_x : ℚ := x * qcos rotation - y * qsin rotation
  let rotated_y : ℚ := x * qsin rotation + y * qcos rotation
  (pyInt ((center_x : ℚ) + rotated_x), pyInt ((center_y : ℚ) + rotated_y))

/-- The keyword arguments of `send_target_coords` (line 242). `mode_circle`
models `mode == "circle"`. -/
structure SendArgs where
  cx : Option ℤ
  cy : Option ℤ
  mode_circle : Bool
  center : Option (ℤ × ℤ)
  radius : Option ℤ
  ellipse_params : Option (ℚ × ℚ × ℚ)
deriving Repr

/-- The `None`-coordinate substitution of line 275: a missing coordinate
pair is replaced by the screen center. -/
def aim_target (cx cy : Option ℤ) : ℤ × ℤ :=
  match cx, cy with
  | some cx, some cy => (cx, cy)
  | _, _ => (SCREEN_CENTER_X, SCREEN_CENTER_Y)

/-- The aim-mode call `send_target_coords(cx, cy)` of line 397. -/
def aimArgs (cx cy : ℤ) : SendArgs :=
  { cx := some cx, cy := some cy, mode_circle := false,
    center := none, radius := none, ellipse_params := none }

/-- `send_target_coords` (lines 242-287). The three `time.ticks_ms()` reads
it performs are the parameters `now1` (line 250), `now2` (line 257) and
`now3` (line 259). The result is the post-call global state, the returned
pair (`none` standing for the Python `(None, None)`), and the byte string
written to the UART (`none` when nothing is written). -/
def send_target_coords (qcos qsin : ℚ → ℚ) (now1 now2 now3 : ℕ)
    (s : GState) (a : SendArgs) : GState × Option (ℤ × ℤ) × Option (List ℕ) :=
  if tdiff now1 s.last_uart_send_time < (s.current_send_interval_ms : ℤ) then
    (s, none, none)
  else
    let step : ℤ × ℤ × GState :=
      match a.mode_circle, a.center, a.radius with
      | true, some (center_x, center_y), some radius =>
        let start : ℕ := s.circle_start_time.getD now2
        let angle0 : ℚ := if s.circle_start_time = none then 0 else s.current_angle
        let elapsed : ℤ := tdiff now3 start
        let ideal_angle : ℚ :=
          ((elapsed % (target_circle_time : ℤ) : ℤ) : ℚ) / (target_circle_time : ℚ) * 2 * mathPi
        let new_angle : ℚ := advance_angle ideal_angle angle0
        let ep : ℚ × ℚ × ℚ := a.ellipse_params.getD ((radius : ℚ), (radius : ℚ), 0)
        let tp : ℤ × ℤ := get_ellipse_point qcos qsin center_x center_y ep.1 ep.2.1 new_angle ep.2.2
        let tp2 : ℤ × ℤ :=
          match s.last_target_point with
          | some (lx, ly) =>
            (pyInt ((tp.1 : ℚ) * (1 - smooth_factor) + (lx : ℚ) * smooth_factor),
             pyInt ((tp.2 : ℚ) * (1 - smooth_factor) + (ly : ℚ) * smooth_factor))
          | none => tp
        let final_x : ℤ := min 255 (max 0 tp2.1)
        let final_y : ℤ := min 255 (max 0 tp2.2)
        (final_x, final_y,
          { s with circle_start_time := some start, current_angle := new_angle,
                   last_target_point := some tp2 })
      | _, _, _ =>
        let c : ℤ × ℤ := aim_target a.cx a.cy
        let final_x : ℤ := min 255 (max 0 c.1)
        let final_y : ℤ := min 255 (max 0 c.2)
        (final_x, final_y, { s with circle_start_time := none, last_target_point := none })
    let combined : ℕ := (step.1.toNat <<< 8) ||| step.2.1.toNat
    let payload : List ℕ := [combined / 256, combined % 256]
    let packet : List ℕ := TARGET_LOCKED_HEADER ++ payload ++ TARGET_LOCKED_FOOTER
    ({ step.2.2 with last_uart_send_time := now1 }, some (step.1, step.2.1), some packet)

/-- `set_send_interval_for_mode` (lines 289-296). -/
def set_send_interval_for_mode (s : GState) (mode : ℕ) : GState :=
  if mode = STATE_CIRCLE_TRACKING then { s with current_send_interval_ms := CIRCLE_SEND_INTERVAL_MS }
  else { s with current_send_interval_ms := STANDARD_SEND_INTERVAL_MS }

/-- The command dispatch of the main loop (lines 348-366): `0xA1` enters
aim mode, `0xA2` enters circle tracking and resets the scan state, `0xA3`
enters idle, and any other byte changes nothing. -/
def handle_command (s : GState) (command : ℕ) : GState :=
  if command = CMD_AIM_BULLSEYE then
    set_send_interval_for_mode { s with current_state := STATE_AIM_BULLSEYE } STATE_AIM_BULLSEYE
  else if command = CMD_CIRCLE_TRACKING then
    let s2 := set_send_interval_for_mode
      { s with current_state := STATE_CIRCLE_TRACKING } STATE_CIRCLE_TRACKING
    { s2 with circle_start_time := none, current_angle := 0, last_target_point := none }
  else if command = CMD_IDLE then
    { s with current_state := STATE_IDLE }
  else s

/-- One externally visible event of the control loop: either a call to
`send_target_coords` (with its three clock reads and arguments) or the
dispatch of a received command byte. -/
inductive Ev where
  | call (now1 now2 now3 : ℕ) (a : SendArgs)
  | cmd (b : ℕ)

/-- Run one event; the optional emission records the send time `now1`, the
interval that gated the send, and the packet written. -/
def run_ev (qcos qsin : ℚ → ℚ) (s : GState) : Ev → GState × Option (ℕ × ℕ × List ℕ)
  | .call now1 now2 now3 a =>
    let r := send_target_coords qcos qsin now1 now2 now3 s a
    (r.1, r.2.2.map fun p => (now1, s.current_send_interval_ms, p))
  | .cmd b => (handle_command s b, none)

/-- Run a list of events, collecting the emissions in order. -/
def run_trace (qcos qsin : ℚ → ℚ) (s : GState) : List Ev → GState × List (ℕ × ℕ × List ℕ)
  | [] => (s, [])
  | e :: es =>
    let r1 := run_ev qcos qsin s e
    let r2 := run_trace qcos qsin r1.1 es
    (r2.1, r1.2.toList ++ r2.2)

/-- Timestamps along a trace are monotone: every `call` event's first clock
read is at least the bound `lb`, and bounds propagate left to right. -/
def Chronological (lb : ℕ) : List Ev → Prop
  | [] => True
  | .call now1 _ _ _ :: es => lb ≤ now1 ∧ Chronological now1 es
  | .cmd _ :: es => Chronological lb es

/-- A fresh aim-mode state (used as a concrete test state): interval 30,
last send at t = 100, no circle scan in progress. -/
def sAim : GState :=
  { current_send_interval_ms := 30, last_uart_send_time := 100, current_angle := 0,
    circle_start_time := none, last_target_point := none,
    current_state := STATE_AIM_BULLSEYE }

/-- An aim-mode state carrying a live (stale) circle-scan state. -/
def sScan : GState :=
  { current_send_interval_ms := 30, last_uart_send_time := 100, current_angle := 2,
    circle_start_time := some 40, last_target_point := some (7, 8),
    current_state := STATE_AIM_BULLSEYE }

/-- A circle-tracking state with a live scan (used as a concrete test
state): interval 50, scan started at t = 5. -/
def sTrack : GState :=
  { current_send_interval_ms := 50, last_uart_send_time := 0, current_angle := 3,
    circle_start_time := some 5, last_target_point := some (9, 9),
    current_state := STATE_CIRCLE_TRACKING }

/-! ## Helper lemmas -/

lemma mathPi_pos : 0 < mathPi := by norm_num [mathPi]

lemma qmod_nonneg_lt (x m : ℚ) (hm : 0 < m) : 0 ≤ qmod x m ∧ qmod x m < m := by
  unfold qmod
  have hm0 : m ≠ 0 := ne_of_gt hm
  have h1 : (⌊x / m⌋ : ℚ) ≤ x / m := Int.floor_le _
  have h2 : x / m < ⌊x / m⌋ + 1 := Int.lt_floor_add_one _
  have h1m : m * (⌊x / m⌋ : ℚ) ≤ x := by
    have := mul_le_mul_of_nonneg_left h1 (le_of_lt hm)
    rwa [mul_div_cancel₀ _ hm0] at this
  have h2m : x < m * ((⌊x / m⌋ : ℚ) + 1) := by
    have := mul_lt_mul_of_pos_left h2 hm
    rwa [mul_div_cancel₀ _ hm0] at this
  exact ⟨by linarith, by nlinarith⟩

lemma pack_bytes (x y : ℕ) (hy : y ≤ 255) :
    (x <<< 8 ||| y) / 256 = x ∧ (x <<< 8 ||| y) % 256 = y := by
  have h : x <<< 8 ||| y = 256 * x + y := by
    rw [Nat.shiftLeft_eq, Nat.mul_comm]
    exact (Nat.mul_add_lt_is_or (by omega) x).symm
  rw [h]
  omega

lemma send_suppressed (qcos qsin : ℚ → ℚ) (now1 now2 now3 : ℕ) (s : GState) (a : SendArgs)
    (h : tdiff now1 s.last_uart_send_time < (s.current_send_interval_ms : ℤ)) :
    send_target_coords qcos qsin now1 now2 now3 s a = (s, none, none) := by
  simp only [send_target_coords, if_pos h]

lemma clamp_packet (tx ty : ℤ) :
    TARGET_LOCKED_HEADER ++
        [((min 255 (max 0 tx)).toNat <<< 8 ||| (min 255 (max 0 ty)).toNat) / 256,
         ((min 255 (max 0 tx)).toNat <<< 8 ||| (min 255 (max 0 ty)).toNat) % 256] ++
        TARGET_LOCKED_FOOTER
      = [0x3C, 0x3B, (min 255 (max 0 tx)).toNat, (min 255 (max 0 ty)).toNat, 0x01, 0x01] := by
  have h := pack_bytes (min 255 (max 0 tx)).toNat (min 255 (max 0 ty)).toNat (by omega)
  simp [TARGET_LOCKED_HEADER, TARGET_LOCKED_FOOTER, h.1, h.2]

/-- Anatomy of every send that passes the rate gate: the emitted packet is
the 6-byte frame around the two independently clamped coordinate bytes, the
new `last_uart_send_time` is the gate's clock read `now1`, the send interval
and mode are untouched, and a non-circle call clears the circle-scan
state. -/
lemma send_emit_spec (qcos qsin : ℚ → ℚ) (now1 now2 now3 : ℕ) (s : GState) (a : SendArgs)
    (h : ¬ tdiff now1 s.last_uart_send_time < (s.current_send_interval_ms : ℤ)) :
    ∃ (fx fy : ℤ) (s3 : GState),
      send_target_coords qcos qsin now1 now2 now3 s a
        = (s3, some (fx, fy), some [0x3C, 0x3B, fx.toNat, fy.toNat, 0x01, 0x01]) ∧
      (∃ tx : ℤ, fx = min 255 (max 0 tx)) ∧ (∃ ty : ℤ, fy = min 255 (max 0 ty)) ∧
      s3.last_uart_send_time = now1 ∧
      s3.current_send_interval_ms = s.current_send_interval_ms ∧
      s3.current_state = s.current_state ∧
      (a.mode_circle = false → s3.circle_start_time = none ∧ s3.last_target_point = none ∧
        s3.current_angle = s.current_angle) := by
  obtain ⟨cx, cy, mc, ctr, rad, ep⟩ := a
  rcases mc with _ | _
  case false =>
    simp only [send_target_coords, if_neg h, clamp_packet]
    exact ⟨_, _, _, rfl, ⟨_, rfl⟩, ⟨_, rfl⟩, rfl, rfl, rfl, fun _ => ⟨rfl, rfl, rfl⟩⟩
  case true =>
    rcases ctr with _ | ⟨cx0, cy0⟩
    · simp only [send_target_coords, if_neg h, clamp_packet]
      exact ⟨_, _, _, rfl, ⟨_, rfl⟩, ⟨_, rfl⟩, rfl, rfl, rfl, fun hf => by cases hf⟩
    · rcases rad with _ | r
      · simp only [send_target_coords, if_neg h, clamp_packet]
        exact ⟨_, _, _, rfl, ⟨_, rfl⟩, ⟨_, rfl⟩, rfl, rfl, rfl, fun hf => by cases hf⟩
      · simp only [send_target_coords, if_neg h, clamp_packet]
        exact ⟨_, _, _, rfl, ⟨_, rfl⟩, ⟨_, rfl⟩, rfl, rfl, rfl, fun hf => by cases hf⟩

lemma send_emit_bounds (tx : ℤ) : 0 ≤ min 255 (max 0 tx) ∧ min 255 (max 0 tx) ≤ 255 := by
  omega

lemma send_keeps_interval (qcos qsin : ℚ → ℚ) (now1 now2 now3 : ℕ) (s : GState) (a : SendArgs) :
    (send_target_coords qcos qsin now1 now2 now3 s a).1.current_send_interval_ms
      = s.current_send_interval_ms := by
  by_cases h : tdiff now1 s.last_uart_send_time < (s.current_send_interval_ms : ℤ)
  · rw [send_suppressed qcos qsin now1 now2 now3 s a h]
  · obtain ⟨fx, fy, s3, heq, _, _, _, hiv, _, _⟩ := send_emit_spec qcos qsin now1 now2 now3 s a h
    rw [heq]
    exact hiv

/-! ## C5 -/

/-- C5: a call gated by `now − lastSendTime < intervalMs` is a pure
suppression — it returns `(None, None)`, writes nothing, and leaves the
whole global state (including `last_uart_send_time`, `current_angle`,
`circle_start_time` and `last_target_point`) unchanged; and on any call from
this state, `last_uart_send_time` is set to the call's clock read exactly
when the call actually emits a packet. -/
theorem suppressed_call_pure (qcos qsin : ℚ → ℚ) (now1 now2 now3 : ℕ) (s : GState) (a : SendArgs)
    (h : tdiff now1 s.last_uart_send_time < (s.current_send_interval_ms : ℤ)) :
    send_target_coords qcos qsin now1 now2 now3 s a = (s, none, none) ∧
    ∀ (m1 m2 m3 : ℕ) (b : SendArgs),
      ((send_target_coords qcos qsin m1 m2 m3 s b).2.2 = none →
        (send_target_coords qcos qsin m1 m2 m3 s b).1 = s) ∧
      ((send_target_coords qcos qsin m1 m2 m3 s b).2.2 ≠ none →
        (send_target_coords qcos qsin m1 m2 m3 s b).1.last_uart_send_time = m1) := by
  refine ⟨send_suppressed qcos qsin now1 now2 now3 s a h, ?_⟩
  intro m1 m2 m3 b
  by_cases hg : tdiff m1 s.last_uart_send_time < (s.current_send_interval_ms : ℤ)
  · rw [send_suppressed qcos qsin m1 m2 m3 s b hg]
    exact ⟨fun _ => rfl, fun hne => absurd rfl hne⟩
  · obtain ⟨fx, fy, s3, heq, _, _, hlast, _, _, _⟩ := send_emit_spec qcos qsin m1 m2 m3 s b hg
    rw [heq]
    exact ⟨fun hc => (by cases hc), fun _ => hlast⟩

/-- C5 witness: at `last_uart_send_time = 100`, interval 30, a call at
`now = 110` is suppressed with no state change. -/
theorem suppressed_call_pure_witness :
    send_target_coords (fun _ => 1) (fun _ => 0) 110 110 110 sAim (aimArgs 120 80)
      = (sAim, none, none) :=
  (suppressed_call_pure (fun _ => 1) (fun _ => 0) 110 110 110 sAim (aimArgs 120 80)
    (by decide)).1

/-! ## C10 -/

/-- C10: every non-circle call to `send_target_coords` that passes the rate
gate emits a packet and clears `circle_start_time` and `last_target_point`
to `none`, while a gate-suppressed non-circle call leaves the whole state
unchanged — the circle-scan state is cleared only at the first aim-mode
send the gate permits, not at the moment of a mode switch. -/
theorem aim_send_clears_scan_state (qcos qsin : ℚ → ℚ) (now1 now2 now3 : ℕ) (s : GState)
    (a : SendArgs) (hmode : a.mode_circle = false) :
    (¬ tdiff now1 s.last_uart_send_time < (s.current_send_interval_ms : ℤ) →
      (send_target_coords qcos qsin now1 now2 now3 s a).1.circle_start_time = none ∧
      (send_target_coords qcos qsin now1 now2 now3 s a).1.last_target_point = none ∧
      (send_target_coords qcos qsin now1 now2 now3 s a).2.2 ≠ none) ∧
    (tdiff now1 s.last_uart_send_time < (s.current_send_interval_ms : ℤ) →
      send_target_coords qcos qsin now1 now2 now3 s a = (s, none, none)) := by
  constructor
  · intro h
    obtain ⟨fx, fy, s3, heq, _, _, _, _, _, hclear⟩ :=
      send_emit_spec qcos qsin now1 now2 now3 s a h
    obtain ⟨h1, h2, _⟩ := hclear hmode
    rw [heq]
    exact ⟨h1, h2, by simp⟩
  · exact send_suppressed qcos qsin now1 now2 now3 s a

/-- C10 witness: from a live circle-scan state, a gate-passing aim call at
`now = 200` clears the scan state, and a gate-suppressed one at `now = 110`
leaves it untouched. -/
theorem aim_send_clears_scan_state_witness :
    ((send_target_coords (fun _ => 1) (fun _ => 0) 200 200 200 sScan
        (aimArgs 120 80)).1.circle_start_time = none ∧
      (send_target_coords (fun _ => 1) (fun _ => 0) 200 200 200 sScan
        (aimArgs 120 80)).1.last_target_point = none ∧
      (send_target_coords (fun _ => 1) (fun _ => 0) 200 200 200 sScan
        (aimArgs 120 80)).2.2 ≠ none) ∧
    send_target_coords (fun _ => 1) (fun _ => 0) 110 110 110 sScan (aimArgs 120 80)
      = (sScan, none, none) :=
  ⟨(aim_send_clears_scan_state (fun _ => 1) (fun _ => 0) 200 200 200 sScan
      (aimArgs 120 80) rfl).1 (by decide),
   (aim_send_clears_scan_state (fun _ => 1) (fun _ => 0) 110 110 110 sScan
      (aimArgs 120 80) rfl).2 (by decide)⟩

/-! ## C1 -/

/-- C1 counterexample: a concrete gate-passing aim-mode send emits the
packet `3C 3B 78 50 01 01`, which has exactly 6 bytes — not 7 as the claim
states: the frame is header (2) + big-endian value (2) + trailer (2). -/
theorem packet_is_six_bytes_not_seven :
    (send_target_coords (fun _ => 1) (fun _ => 0) 200 200 200 sAim (aimArgs 120 80)).2.2
      = some [0x3C, 0x3B, 120, 80, 0x01, 0x01] ∧
    ([0x3C, 0x3B, 120, 80, 0x01, 0x01] : List ℕ).length = 6 ∧ (6 : ℕ) ≠ 7 := by
  refine ⟨by decide, by decide, by decide⟩

/-- C1 (amended): every packet written by `send_target_coords` — for every
point passed to it, including out-of-frame points — is exactly the fixed
SIX-byte big-endian frame: header `3C 3B`, the 16-bit big-endian value
`(x <<< 8) ||| y` with `x` and `y` each independently clamped to
`[0, 255]` before packing, then trailer `01 01`. -/
theorem send_packet_frame (qcos qsin : ℚ → ℚ) (now1 now2 now3 : ℕ) (s : GState) (a : SendArgs)
    (p : List ℕ) (hp : (send_target_coords qcos qsin now1 now2 now3 s a).2.2 = some p) :
    ∃ fx fy : ℤ, (send_target_coords qcos qsin now1 now2 now3 s a).2.1 = some (fx, fy) ∧
      0 ≤ fx ∧ fx ≤ 255 ∧ 0 ≤ fy ∧ fy ≤ 255 ∧
      (∃ tx : ℤ, fx = min 255 (max 0 tx)) ∧ (∃ ty : ℤ, fy = min 255 (max 0 ty)) ∧
      p = TARGET_LOCKED_HEADER ++
        [(fx.toNat <<< 8 ||| fy.toNat) / 256, (fx.toNat <<< 8 ||| fy.toNat) % 256] ++
        TARGET_LOCKED_FOOTER ∧
      p = [0x3C, 0x3B, fx.toNat, fy.toNat, 0x01, 0x01] ∧
      p.length = 6 := by
  by_cases h : tdiff now1 s.last_uart_send_time < (s.current_send_interval_ms : ℤ)
  · rw [send_suppressed qcos qsin now1 now2 now3 s a h] at hp
    cases hp
  · obtain ⟨fx, fy, s3, heq, htx, hty, _, _, _, _⟩ :=
      send_emit_spec qcos qsin now1 now2 now3 s a h
    obtain ⟨tx, hfx⟩ := htx
    obtain ⟨ty, hfy⟩ := hty
    rw [heq] at hp ⊢
    obtain rfl : [0x3C, 0x3B, fx.toNat, fy.toNat, 0x01, 0x01] = p := by
      cases hp
      rfl
    refine ⟨fx, fy, rfl, by omega, by omega, by omega, by omega, ⟨tx, hfx⟩, ⟨ty, hfy⟩, ?_, rfl, rfl⟩
    have hb := pack_bytes fx.toNat fy.toNat (by omega)
    rw [hb.1, hb.2]
    rfl

/-- C1 witness: the amended frame shape at a concrete out-of-frame input
`(300, −7)`, which is clamped to `(255, 0)`. -/
theorem send_packet_frame_witness :
    ∃ fx fy : ℤ,
      (send_target_coords (fun _ => 1) (fun _ => 0) 200 200 200 sAim
          (aimArgs 300 (-7))).2.1 = some (fx, fy) ∧
      0 ≤ fx ∧ fx ≤ 255 ∧ 0 ≤ fy ∧ fy ≤ 255 ∧
      (∃ tx : ℤ, fx = min 255 (max 0 tx)) ∧ (∃ ty : ℤ, fy = min 255 (max 0 ty)) ∧
      [0x3C, 0x3B, 255, 0, 0x01, 0x01] = TARGET_LOCKED_HEADER ++
        [(fx.toNat <<< 8 ||| fy.toNat) / 256, (fx.toNat <<< 8 ||| fy.toNat) % 256] ++
        TARGET_LOCKED_FOOTER ∧
      [0x3C, 0x3B, 255, 0, 0x01, 0x01] = [0x3C, 0x3B, fx.toNat, fy.toNat, 0x01, 0x01] ∧
      ([0x3C, 0x3B, 255, 0, 0x01, 0x01] : List ℕ).length = 6 :=
  send_packet_frame (fun _ => 1) (fun _ => 0) 200 200 200 sAim (aimArgs 300 (-7))
    [0x3C, 0x3B, 255, 0, 0x01, 0x01] (by decide)

lemma chronological_mono (lb1 lb2 : ℕ) (es : List Ev) (hle : lb1 ≤ lb2)
    (hch : Chronological lb2 es) : Chronological lb1 es := by
  induction es generalizing lb1 lb2 with
  | nil => trivial
  | cons e es ih =>
    rcases e with ⟨n1, n2, n3, a⟩ | b
    · exact ⟨le_trans hle hch.1, hch.2⟩
    · exact ih lb1 lb2 hle hch

lemma handle_command_keeps_last (s : GState) (b : ℕ) :
    (handle_command s b).last_uart_send_time = s.last_uart_send_time := by
  unfold handle_command set_send_interval_for_mode
  split_ifs <;> rfl

lemma handle_command_interval_cases (s : GState) (b : ℕ) :
    (handle_command s b).current_send_interval_ms = 30 ∨
    (handle_command s b).current_send_interval_ms = 50 ∨
    (handle_command s b).current_send_interval_ms = s.current_send_interval_ms := by
  unfold handle_command set_send_interval_for_mode
  split_ifs <;>
    simp_all [STATE_AIM_BULLSEYE, STATE_CIRCLE_TRACKING, STANDARD_SEND_INTERVAL_MS,
      CIRCLE_SEND_INTERVAL_MS]

lemma run_trace_spec (qcos qsin : ℚ → ℚ) (es : List Ev) :
    ∀ s : GState, Chronological s.last_uart_send_time es →
      List.Chain' (fun e1 e2 => (e2.2.1 : ℤ) ≤ (e2.1 : ℤ) - (e1.1 : ℤ))
        (run_trace qcos qsin s es).2 ∧
      (∀ x, (run_trace qcos qsin s es).2.head? = some x →
        (x.2.1 : ℤ) ≤ (x.1 : ℤ) - (s.last_uart_send_time : ℤ)) ∧
      (∀ x ∈ (run_trace qcos qsin s es).2,
        x.2.1 = 30 ∨ x.2.1 = 50 ∨ x.2.1 = s.current_send_interval_ms) := by
  induction es with
  | nil =>
    intro s _
    refine ⟨List.chain'_nil, ?_, ?_⟩ <;> simp [run_trace]
  | cons e es ih =>
    intro s hch
    rcases e with ⟨n1, n2, n3, a⟩ | b
    · obtain ⟨hle, hch2⟩ := hch
      by_cases hg : tdiff n1 s.last_uart_send_time < (s.current_send_interval_ms : ℤ)
      · have hrun : run_trace qcos qsin s (.call n1 n2 n3 a :: es) = run_trace qcos qsin s es := by
          simp only [run_trace, run_ev, send_suppressed qcos qsin n1 n2 n3 s a hg, Option.map,
            Option.toList, List.nil_append]
        rw [hrun]
        exact ih s (chronological_mono s.last_uart_send_time n1 es hle hch2)
      · obtain ⟨fx, fy, s3, heq, _, _, hlast, hiv, _, _⟩ :=
          send_emit_spec qcos qsin n1 n2 n3 s a hg
        have hch3 : Chronological s3.last_uart_send_time es := by
          rw [hlast]; exact hch2
        obtain ⟨ihc, ihh, ihm⟩ := ih s3 hch3
        have hrun : run_trace qcos qsin s (.call n1 n2 n3 a :: es)
            = ((run_trace qcos qsin s3 es).1,
               (n1, s.current_send_interval_ms, [0x3C, 0x3B, fx.toNat, fy.toNat, 0x01, 0x01])
                 :: (run_trace qcos qsin s3 es).2) := by
          simp only [run_trace, run_ev, heq, Option.map, Option.toList, List.cons_append,
            List.nil_append]
        rw [hrun]
        refine ⟨?_, ?_, ?_⟩
        · rw [List.chain'_cons']
          refine ⟨?_, ihc⟩
          intro y hy
          have hgap := ihh y (Option.mem_def.mp hy)
          rw [hlast] at hgap
          exact hgap
        · intro x hx
          rw [List.head?_cons, Option.some_inj] at hx
          subst hx
          simp only [tdiff, not_lt] at hg ⊢
          omega
        · intro x hx
          rcases List.mem_cons.mp hx with rfl | hx2
          · right; right; rfl
          · rcases ihm x hx2 with h | h | h
            · left; exact h
            · right; left; exact h
            · right; right; rw [← hiv]; exact h
    · have hrun : run_trace qcos qsin s (.cmd b :: es)
          = run_trace qcos qsin (handle_command s b) es := by
        simp only [run_trace, run_ev, Option.toList, List.nil_append]
      have hch2 : Chronological (handle_command s b).last_uart_send_time es := by
        rw [handle_command_keeps_last]
        exact hch
      obtain ⟨ihc, ihh, ihm⟩ := ih (handle_command s b) hch2
      rw [hrun]
      refine ⟨ihc, ?_, ?_⟩
      · intro x hx
        have := ihh x hx
        rwa [handle_command_keeps_last] at this
      · intro x hx
        rcases ihm x hx with h | h | h
        · left; exact h
        · right; left; exact h
        · rcases handle_command_interval_cases s b with h2 | h2 | h2
          · left; rw [h, h2]
          · right; left; rw [h, h2]
          · right; right; rw [h, h2]

/-! ## C2 -/

/-- C2: over any event trace with monotone timestamps, consecutive emitted
packets are separated by at least the send interval that was configured at
the moment of the second emission; every interval in force is 30 (aim /
standard), 50 (tracking) or the initial one; and a call at time `now` with
`now − lastSendTime < intervalMs` writes nothing. -/
theorem send_gate_min_interval (qcos qsin : ℚ → ℚ) (s : GState) (es : List Ev)
    (hch : Chronological s.last_uart_send_time es) :
    List.Chain' (fun e1 e2 => (e2.2.1 : ℤ) ≤ (e2.1 : ℤ) - (e1.1 : ℤ))
      (run_trace qcos qsin s es).2 ∧
    (∀ x ∈ (run_trace qcos qsin s es).2,
      x.2.1 = 30 ∨ x.2.1 = 50 ∨ x.2.1 = s.current_send_interval_ms) ∧
    ∀ (now1 now2 now3 : ℕ) (a : SendArgs),
      tdiff now1 s.last_uart_send_time < (s.current_send_interval_ms : ℤ) →
      (send_target_coords qcos qsin now1 now2 now3 s a).2.2 = none := by
  obtain ⟨hc, _, hm⟩ := run_trace_spec qcos qsin es s hch
  refine ⟨hc, hm, ?_⟩
  intro n1 n2 n3 a hg
  rw [send_suppressed qcos qsin n1 n2 n3 s a hg]

/-- C2 witness: a four-event trace from `sAim` — a send at t = 200, a
suppressed call at t = 210, a switch to tracking mode, a send at t = 260 —
yields a packet sequence spaced by at least the interval in force. -/
theorem send_gate_min_interval_witness :
    List.Chain' (fun e1 e2 => (e2.2.1 : ℤ) ≤ (e2.1 : ℤ) - (e1.1 : ℤ))
      (run_trace (fun _ => 1) (fun _ => 0) sAim
        [.call 200 200 200 (aimArgs 10 20), .call 210 210 210 (aimArgs 30 40),
         .cmd CMD_CIRCLE_TRACKING, .call 260 260 260 (aimArgs 1 2)]).2 :=
  (send_gate_min_interval (fun _ => 1) (fun _ => 0) sAim
    [.call 200 200 200 (aimArgs 10 20), .call 210 210 210 (aimArgs 30 40),
     .cmd CMD_CIRCLE_TRACKING, .call 260 260 260 (aimArgs 1 2)]
    ⟨by norm_num [sAim], by norm_num, by norm_num, trivial⟩).1

/-! ## C6 -/

/-- C6: for ideal and current phase angles in `[0, 2π)`, the signed
difference is wrapped into `[−π, π]` before the phase is advanced by `0.3`
of it and re-wrapped into `[0, 2π)`; the `ideal_angle` computed from any
elapsed time lies in `[0, 2π)`; and in particular, advancing from
`phaseAngle = 0.1` toward `idealAngle = 2π − 0.1` takes the short way:
the wrapped difference is `−0.2` (not `2π − 0.2`), one advance moves the
phase down from `0.1` to `0.04`, and a second advance crosses `0` to
`2π − 0.002` — never the long way through `π`. -/
theorem phase_advance_wrap (ideal current : ℚ)
    (hi0 : 0 ≤ ideal) (hi1 : ideal < 2 * mathPi)
    (hc0 : 0 ≤ current) (hc1 : current < 2 * mathPi) :
    (-mathPi ≤ wrap_angle_diff (ideal - current) ∧ wrap_angle_diff (ideal - current) ≤ mathPi) ∧
    advance_angle ideal current
      = qmod (current + wrap_angle_diff (ideal - current) * 0.3) (2 * mathPi) ∧
    (0 ≤ advance_angle ideal current ∧ advance_angle ideal current < 2 * mathPi) ∧
    (∀ elapsed : ℤ,
      0 ≤ ((elapsed % (target_circle_time : ℤ) : ℤ) : ℚ) / (target_circle_time : ℚ) * 2 * mathPi
      ∧ ((elapsed % (target_circle_time : ℤ) : ℤ) : ℚ) / (target_circle_time : ℚ) * 2 * mathPi
        < 2 * mathPi) ∧
    wrap_angle_diff ((2 * mathPi - 1/10) - 1/10) = -(1/5 : ℚ) ∧
    advance_angle (2 * mathPi - 1/10) (1/10) = 1/25 ∧
    advance_angle (2 * mathPi - 1/10) (1/25) = 2 * mathPi - 1/500 := by
  have hpi := mathPi_pos
  refine ⟨?_, rfl, ?_, ?_, ?_, ?_, ?_⟩
  · unfold wrap_angle_diff
    split_ifs with h1 h2
    · constructor <;> linarith
    · constructor <;> linarith
    · constructor <;> linarith
  · exact qmod_nonneg_lt _ _ (by linarith)
  · intro elapsed
    have he0 : (0 : ℤ) ≤ elapsed % (target_circle_time : ℤ) :=
      Int.emod_nonneg elapsed (by norm_num [target_circle_time])
    have he1 : elapsed % (target_circle_time : ℤ) < (target_circle_time : ℤ) :=
      Int.emod_lt_of_pos elapsed (by norm_num [target_circle_time])
    have hq0 : (0 : ℚ) ≤ ((elapsed % (target_circle_time : ℤ) : ℤ) : ℚ) := by
      exact_mod_cast he0
    have hq1 : ((elapsed % (target_circle_time : ℤ) : ℤ) : ℚ) < (target_circle_time : ℚ) := by
      exact_mod_cast he1
    have htc : (0 : ℚ) < (target_circle_time : ℚ) := by norm_num [target_circle_time]
    constructor
    · positivity
    · have hlt1 : ((elapsed % (target_circle_time : ℤ) : ℤ) : ℚ) / (target_circle_time : ℚ) < 1 :=
        (div_lt_one htc).mpr hq1
      nlinarith
  · norm_num [wrap_angle_diff, mathPi]
  · norm_num [advance_angle, wrap_angle_diff, qmod, mathPi]
  · norm_num [advance_angle, wrap_angle_diff, qmod, mathPi]

/-- C6 witness: the wrap bound at the claim's own instance
`phaseAngle = 0.1`, `idealAngle = 2π − 0.1`. -/
theorem phase_advance_wrap_witness :
    -mathPi ≤ wrap_angle_diff ((2 * mathPi - 1/10) - 1/10) ∧
    wrap_angle_diff ((2 * mathPi - 1/10) - 1/10) ≤ mathPi :=
  (phase_advance_wrap (2 * mathPi - 1/10) (1/10) (by norm_num [mathPi])
    (by norm_num [mathPi]) (by norm_num) (by norm_num [mathPi])).1

/-! ## C8 -/

/-- `r` lies on the line through `p` and `q` (degenerate when `p = q`). -/
def on_line (p q r : ℚ × ℚ) : Prop :=
  (r.1 - p.1) * (q.2 - p.2) = (r.2 - p.2) * (q.1 - p.1)

/-- C8: `calculate_perspective_correction` on a 4-corner quad falls back to
the integer centroid of the corners exactly when the diagonal determinant
`d` is zero; otherwise it returns (the integer truncation of) the unique
intersection point of the two diagonals `corners[0]–corners[2]` and
`corners[1]–corners[3]`, by the two-line-intersection formula; and on every
perfect axis-aligned square with non-negative corner coordinates the result
equals the integer centroid of the four corners exactly. -/
theorem perspective_center_spec (xa ya xb yb xc yc xd yd : ℤ) :
    ((xa - xc) * (yb - yd) - (ya - yc) * (xb - xd) = 0 →
      calculate_perspective_correction (some [(xa, ya), (xb, yb), (xc, yc), (xd, yd)])
        = ((xa + xb + xc + xd).fdiv 4, (ya + yb + yc + yd).fdiv 4)) ∧
    ((xa - xc) * (yb - yd) - (ya - yc) * (xb - xd) ≠ 0 →
      ∃ px py : ℚ,
        on_line ((xa : ℚ), (ya : ℚ)) ((xc : ℚ), (yc : ℚ)) (px, py) ∧
        on_line ((xb : ℚ), (yb : ℚ)) ((xd : ℚ), (yd : ℚ)) (px, py) ∧
        (∀ q : ℚ × ℚ, on_line ((xa : ℚ), (ya : ℚ)) ((xc : ℚ), (yc : ℚ)) q →
          on_line ((xb : ℚ), (yb : ℚ)) ((xd : ℚ), (yd : ℚ)) q → q = (px, py)) ∧
        calculate_perspective_correction (some [(xa, ya), (xb, yb), (xc, yc), (xd, yd)])
          = (pyInt px, pyInt py)) ∧
    (∀ x y s : ℤ, 0 < s → 0 ≤ x → 0 ≤ y →
      calculate_perspective_correction (some (get_approximate_corners x y s s))
        = ((x + (x + s) + (x + s) + x).fdiv 4, (y + (y + s) + (y + s) + y).fdiv 4)) := by
  refine ⟨?_, ?_, ?_⟩
  · intro hd
    simp only [calculate_perspective_correction]
    rw [if_pos hd]
  · intro hd
    have hdQ : (((xa - xc) * (yb - yd) - (ya - yc) * (xb - xd) : ℤ) : ℚ) ≠ 0 := by
      exact_mod_cast hd
    refine ⟨(((xa * yc - ya * xc) * (xb - xd) - (xa - xc) * (xb * yd - yb * xd) : ℤ) : ℚ)
        / (((xa - xc) * (yb - yd) - (ya - yc) * (xb - xd) : ℤ) : ℚ),
      (((xa * yc - ya * xc) * (yb - yd) - (ya - yc) * (xb * yd - yb * xd) : ℤ) : ℚ)
        / (((xa - xc) * (yb - yd) - (ya - yc) * (xb - xd) : ℤ) : ℚ), ?_, ?_, ?_, ?_⟩
    · unfold on_line
      push_cast
      push_cast at hdQ
      field_simp
      ring
    · unfold on_line
      push_cast
      push_cast at hdQ
      field_simp
      ring
    · rintro ⟨u, v⟩ h1 h2
      unfold on_line at h1 h2
      simp only at h1 h2
      push_cast
      push_cast at hdQ h1 h2
      refine Prod.ext ?_ ?_ <;> simp only
      · rw [eq_div_iff hdQ]
        linear_combination (-((xd : ℚ) - xb)) * h1 + ((xc : ℚ) - xa) * h2
      · rw [eq_div_iff hdQ]
        linear_combination (-((yd : ℚ) - yb)) * h1 + ((yc : ℚ) - ya) * h2
    · simp only [calculate_perspective_correction]
      rw [if_neg hd]
  · intro x y s hs hx hy
    simp only [calculate_perspective_correction, get_approximate_corners]
    rw [if_neg (by intro h; nlinarith)]
    have hpx : (((x * (y + s) - y * (x + s)) * ((x + s) - x)
          - (x - (x + s)) * ((x + s) * (y + s) - y * x) : ℤ) : ℚ)
          / (((x - (x + s)) * (y - (y + s)) - (y - (y + s)) * ((x + s) - x) : ℤ) : ℚ)
        = ((2 * x + s : ℤ) : ℚ) / ((2 : ℕ) : ℚ) := by
      have hsQ : (s : ℚ) ≠ 0 := by exact_mod_cast ne_of_gt hs
      push_cast
      field_simp
      ring
    have hpy : (((x * (y + s) - y * (x + s)) * (y - (y + s))
          - (y - (y + s)) * ((x + s) * (y + s) - y * x) : ℤ) : ℚ)
          / (((x - (x + s)) * (y - (y + s)) - (y - (y + s)) * ((x + s) - x) : ℤ) : ℚ)
        = ((2 * y + s : ℤ) : ℚ) / ((2 : ℕ) : ℚ) := by
      have hsQ : (s : ℚ) ≠ 0 := by exact_mod_cast ne_of_gt hs
      push_cast
      field_simp
      ring
    rw [hpx, hpy]
    have h1 : pyInt (((2 * x + s : ℤ) : ℚ) / ((2 : ℕ) : ℚ)) = (x + (x + s) + (x + s) + x).fdiv 4 := by
      unfold pyInt
      rw [if_pos (by positivity), Rat.floor_intCast_div_natCast,
        Int.fdiv_eq_ediv _ (by omega)]
      omega
    have h2 : pyInt (((2 * y + s : ℤ) : ℚ) / ((2 : ℕ) : ℚ)) = (y + (y + s) + (y + s) + y).fdiv 4 := by
      unfold pyInt
      rw [if_pos (by positivity), Rat.floor_intCast_div_natCast,
        Int.fdiv_eq_ediv _ (by omega)]
      omega
    rw [h1, h2]

/-- C8 witness: the square-centroid clause at the square with corner
`(10, 20)` and side `5`: the center is the integer centroid `(12, 22)`. -/
theorem perspective_center_spec_witness :
    calculate_perspective_correction (some (get_approximate_corners 10 20 5 5))
      = (((10 : ℤ) + (10 + 5) + (10 + 5) + 10).fdiv 4, ((20 : ℤ) + (20 + 5) + (20 + 5) + 20).fdiv 4) :=
  (perspective_center_spec 0 0 0 0 0 0 0 0).2.2 10 20 5 (by decide) (by decide) (by decide)

/-! ## C4 -/

/-- C4 counterexample: from circle-tracking state with a live scan
(`circle_start_time = some 5`, `last_target_point = some (9, 9)`), the
transitions out of `CircleTracking` (command `0xA3` to Idle, command `0xA1`
to AimBullseye) do NOT clear `scanStartTime` / `lastScanPoint`, contrary to
the claim that every transition out clears them. -/
theorem exit_tracking_keeps_scan_state :
    (handle_command
        { current_send_interval_ms := 50, last_uart_send_time := 0, current_angle := 3,
          circle_start_time := some 5, last_target_point := some (9, 9),
          current_state := STATE_CIRCLE_TRACKING } CMD_IDLE).current_state = STATE_IDLE ∧
    (handle_command
        { current_send_interval_ms := 50, last_uart_send_time := 0, current_angle := 3,
          circle_start_time := some 5, last_target_point := some (9, 9),
          current_state := STATE_CIRCLE_TRACKING } CMD_IDLE).circle_start_time = some 5 ∧
    (handle_command
        { current_send_interval_ms := 50, last_uart_send_time := 0, current_angle := 3,
          circle_start_time := some 5, last_target_point := some (9, 9),
          current_state := STATE_CIRCLE_TRACKING } CMD_IDLE).last_target_point = some (9, 9) ∧
    (handle_command
        { current_send_interval_ms := 50, last_uart_send_time := 0, current_angle := 3,
          circle_start_time := some 5, last_target_point := some (9, 9),
          current_state := STATE_CIRCLE_TRACKING } CMD_AIM_BULLSEYE).current_state
      = STATE_AIM_BULLSEYE ∧
    (handle_command
        { current_send_interval_ms := 50, last_uart_send_time := 0, current_angle := 3,
          circle_start_time := some 5, last_target_point := some (9, 9),
          current_state := STATE_CIRCLE_TRACKING } CMD_AIM_BULLSEYE).circle_start_time = some 5 ∧
    (handle_command
        { current_send_interval_ms := 50, last_uart_send_time := 0, current_angle := 3,
          circle_start_time := some 5, last_target_point := some (9, 9),
          current_state := STATE_CIRCLE_TRACKING } CMD_AIM_BULLSEYE).last_target_point
      = some (9, 9) := by
  refine ⟨rfl, rfl, rfl, rfl, rfl, rfl⟩

/-- C4 (amended): every transition into `CircleTracking` — including a
repeated `0xA2` — resets the scan state to `phaseAngle = 0`,
`scanStartTime = none`, `lastScanPoint = none`, so re-entry never resumes
the previous revolution's phase; but the transitions out of
`CircleTracking` (`0xA3` to Idle, `0xA1` to AimBullseye) leave
`scanStartTime` and `lastScanPoint` unchanged — they are cleared only later,
by the first aim-mode send that passes the rate gate. -/
theorem tracking_entry_resets (s : GState) :
    (handle_command s CMD_CIRCLE_TRACKING).current_state = STATE_CIRCLE_TRACKING ∧
    (handle_command s CMD_CIRCLE_TRACKING).current_angle = 0 ∧
    (handle_command s CMD_CIRCLE_TRACKING).circle_start_time = none ∧
    (handle_command s CMD_CIRCLE_TRACKING).last_target_point = none ∧
    (handle_command s CMD_IDLE).circle_start_time = s.circle_start_time ∧
    (handle_command s CMD_IDLE).last_target_point = s.last_target_point ∧
    (handle_command s CMD_AIM_BULLSEYE).circle_start_time = s.circle_start_time ∧
    (handle_command s CMD_AIM_BULLSEYE).last_target_point = s.last_target_point := by
  refine ⟨rfl, rfl, rfl, rfl, rfl, rfl, rfl, rfl⟩

/-- C4 witness: the amended claim evaluated at the concrete tracking state
`sTrack` with a live scan: re-entry resets the phase, exit to idle keeps the
scan fields. -/
theorem tracking_entry_resets_witness :
    (handle_command sTrack CMD_CIRCLE_TRACKING).current_angle = 0 ∧
    (handle_command sTrack CMD_CIRCLE_TRACKING).circle_start_time = none ∧
    (handle_command sTrack CMD_IDLE).circle_start_time = sTrack.circle_start_time :=
  ⟨(tracking_entry_resets sTrack).2.1, (tracking_entry_resets sTrack).2.2.1,
    (tracking_entry_resets sTrack).2.2.2.2.1⟩

/-! ## C7 -/

/-- C7 counterexample: in circle-tracking mode with the tracking interval
(50 ms) configured, the mode change to Idle (`0xA3`) performs no
reconfiguration of the send interval: it stays at the tracking value 50
instead of being set to the non-tracking value
`STANDARD_SEND_INTERVAL_MS = 30` that `set_send_interval_for_mode` gives
every non-tracking mode. -/
theorem idle_keeps_tracking_interval :
    (handle_command
        { current_send_interval_ms := 50, last_uart_send_time := 0, current_angle := 0,
          circle_start_time := none, last_target_point := none,
          current_state := STATE_CIRCLE_TRACKING } CMD_IDLE).current_state = STATE_IDLE ∧
    (handle_command
        { current_send_interval_ms := 50, last_uart_send_time := 0, current_angle := 0,
          circle_start_time := none, last_target_point := none,
          current_state := STATE_CIRCLE_TRACKING } CMD_IDLE).current_send_interval_ms = 50 ∧
    (set_send_interval_for_mode
        { current_send_interval_ms := 50, last_uart_send_time := 0, current_angle := 0,
          circle_start_time := none, last_target_point := none,
          current_state := STATE_IDLE } STATE_IDLE).current_send_interval_ms
      = STANDARD_SEND_INTERVAL_MS ∧
    (50 : ℕ) ≠ STANDARD_SEND_INTERVAL_MS := by
  refine ⟨rfl, rfl, rfl, by decide⟩

/-- C7 (amended): the mode changes to `AimBullseye` and `CircleTracking`
reconfigure the send gate's interval (to the shorter 30 ms and the longer
50 ms respectively), the mode change to Idle leaves the interval unchanged,
and no command ever resets `last_uart_send_time`, so the gate keeps counting
from its previous reference across mode switches. -/
theorem mode_interval_config (s : GState) :
    (handle_command s CMD_AIM_BULLSEYE).current_send_interval_ms = STANDARD_SEND_INTERVAL_MS ∧
    (handle_command s CMD_CIRCLE_TRACKING).current_send_interval_ms = CIRCLE_SEND_INTERVAL_MS ∧
    (handle_command s CMD_IDLE).current_send_interval_ms = s.current_send_interval_ms ∧
    ∀ b : ℕ, (handle_command s b).last_uart_send_time = s.last_uart_send_time := by
  refine ⟨rfl, rfl, rfl, ?_⟩
  intro b
  unfold handle_command set_send_interval_for_mode
  split_ifs <;> rfl

/-- C7 witness: the amended claim evaluated at the concrete tracking state
`sTrack`: entering aim mode sets 30 ms, idle keeps the interval, and the
send-gate reference is never reset. -/
theorem mode_interval_config_witness :
    (handle_command sTrack CMD_AIM_BULLSEYE).current_send_interval_ms
      = STANDARD_SEND_INTERVAL_MS ∧
    (handle_command sTrack CMD_IDLE).current_send_interval_ms
      = sTrack.current_send_interval_ms ∧
    (handle_command sTrack CMD_IDLE).last_uart_send_time = sTrack.last_uart_send_time :=
  ⟨(mode_interval_config sTrack).1, (mode_interval_config sTrack).2.2.1,
    (mode_interval_config sTrack).2.2.2 CMD_IDLE⟩

/-! ## C9 -/

/-- C9 counterexample: at `rect_height = 100` the code computes
`int(100 * 0.2891) = int(28.91) = 28` (truncation), so the returned radius
is `28`, while the claimed formula `max(3, round(height * k))` gives
`round(28.91) = 29`. -/
theorem radius_truncates_not_rounds :
    (calculate_circle_params (some 50) (some 100)).2 = 28 ∧
    max 3 (round ((100 : ℚ) * 0.2891)) = 29 ∧ (28 : ℤ) ≠ 29 := by
  refine ⟨?_, ?_, by decide⟩
  · have hfl : pyInt (((100 : ℤ) : ℚ) * 0.2891) = 28 := by
      norm_num [pyInt, Int.floor_eq_iff]
    simp only [calculate_circle_params]
    rw [if_neg (by norm_num), hfl]
    norm_num
  · norm_num [round_eq, Int.floor_eq_iff]

/-- C9 (amended): for every positive rectangle width and height,
`calculate_circle_params` returns radius `max 3 (int (height * 0.2891))`
where `int` truncates (not rounds), and for every input — including `None`
or non-positive dimensions, which yield the `(30, 20)` default — the
returned radius is never below 3 pixels. -/
theorem circle_radius_spec :
    (∀ w h : ℤ, 0 < w → 0 < h →
      (calculate_circle_params (some w) (some h)).2 = max 3 (pyInt ((h : ℚ) * 0.2891))) ∧
    ∀ ow oh : Option ℤ, 3 ≤ (calculate_circle_params ow oh).2 := by
  constructor
  · intro w h hw hh
    simp only [calculate_circle_params]
    rw [if_neg (by omega)]
  · intro ow oh
    rcases ow with _ | w <;> rcases oh with _ | h <;> simp only [calculate_circle_params]
    · norm_num
    · norm_num
    · norm_num
    · split_ifs
      · norm_num
      · simp [le_max_left]

/-- C9 witness: the amended formula evaluated at width 50, height 100. -/
theorem circle_radius_spec_witness :
    (calculate_circle_params (some 50) (some 100)).2 = max 3 (pyInt ((100 : ℚ) * 0.2891)) :=
  circle_radius_spec.1 50 100 (by decide) (by decide)

/-! ## C3 -/

lemma blob_accepted_edge_false (b : Blob)
    (hedge : b.rect_x = 0 ∨ b.rect_y = 0 ∨ SCREEN_WIDTH ≤ b.rect_x + b.rect_w ∨
      SCREEN_HEIGHT ≤ b.rect_y + b.rect_h) :
    blob_accepted b = false := by
  unfold blob_accepted
  rcases Decidable.em (b.rect_w = 0 ∨ b.rect_h = 0) with h | h
  · rw [if_pos h]
  · rw [if_neg h, if_pos hedge]

lemma py_max_by_area_spec (c : Blob) (cs : List Blob) :
    ∃ l1 l2 : List Blob, c :: cs = l1 ++ py_max_by_area c cs :: l2 ∧
      (∀ d ∈ l1, d.rect_area < (py_max_by_area c cs).rect_area) ∧
      (∀ d ∈ l2, d.rect_area ≤ (py_max_by_area c cs).rect_area) := by
  induction cs generalizing c with
  | nil => exact ⟨[], [], rfl, by simp, by simp⟩
  | cons x cs ih =>
    have hfold : py_max_by_area c (x :: cs) = py_max_by_area (py_max_step c x) cs := rfl
    by_cases hcx : c.rect_area < x.rect_area
    · have hstep : py_max_step c x = x := if_pos hcx
      rw [hfold, hstep]
      obtain ⟨l1, l2, heq, hl1, hl2⟩ := ih x
      have hxle : x.rect_area ≤ (py_max_by_area x cs).rect_area := by
        cases l1 with
        | nil =>
          simp only [List.nil_append] at heq
          injection heq with h1 _
          rw [← h1]
        | cons a l1 =>
          rw [List.cons_append] at heq
          injection heq with h1 _
          have := hl1 a (List.mem_cons_self a l1)
          rw [← h1] at this
          exact le_of_lt this
      refine ⟨c :: l1, l2, ?_, ?_, hl2⟩
      · rw [List.cons_append, ← heq]
      · intro d hd
        rcases List.mem_cons.mp hd with rfl | hd2
        · exact lt_of_lt_of_le hcx hxle
        · exact hl1 d hd2
    · have hstep : py_max_step c x = c := if_neg hcx
      rw [hfold, hstep]
      obtain ⟨l1, l2, heq, hl1, hl2⟩ := ih c
      cases l1 with
      | nil =>
        simp only [List.nil_append] at heq
        injection heq with h1 h2
        refine ⟨[], x :: l2, ?_, by simp, ?_⟩
        · simp only [List.nil_append]
          rw [← h1, ← h2]
        · intro d hd
          rcases List.mem_cons.mp hd with rfl | hd2
          · rw [← h1]
            exact le_of_not_lt hcx
          · exact hl2 d hd2
      | cons a l1 =>
        rw [List.cons_append] at heq
        injection heq with h1 h2
        have hclt : c.rect_area < (py_max_by_area c cs).rect_area := by
          have := hl1 a (List.mem_cons_self a l1)
          rw [← h1] at this
          exact this
        refine ⟨c :: x :: l1, l2, ?_, ?_, hl2⟩
        · rw [List.cons_append, List.cons_append]
          conv_lhs => rw [h2]
        · intro d hd
          rcases List.mem_cons.mp hd with rfl | hd2
          · exact hclt
          · rcases List.mem_cons.mp hd2 with rfl | hd3
            · exact lt_of_le_of_lt (le_of_not_lt hcx) hclt
            · exact hl1 d (List.mem_cons_of_mem a hd3)

/-- C3: `find_target_boundary_rect` returns `none` exactly when no blob
passes the acceptance pipeline (degenerate, edge-touching, over-large dense,
aspect-ratio / area-window / shape-factor tests); otherwise it returns a
surviving blob of maximum rectangle area, and the first such blob found on
ties (every earlier survivor has strictly smaller area); an edge-touching
blob is never returned, regardless of its other metrics. -/
theorem find_target_spec (blobs : List Blob) :
    (find_target_boundary_rect blobs = none ↔ ∀ b ∈ blobs, blob_accepted b = false) ∧
    (∀ t, find_target_boundary_rect blobs = some t →
      t ∈ blobs ∧ blob_accepted t = true ∧
      (∀ b ∈ blobs, blob_accepted b = true → b.rect_area ≤ t.rect_area) ∧
      ∃ l1 l2 : List Blob, blobs.filter blob_accepted = l1 ++ t :: l2 ∧
        ∀ b ∈ l1, b.rect_area < t.rect_area) ∧
    (∀ b ∈ blobs,
      (b.rect_x = 0 ∨ b.rect_y = 0 ∨ SCREEN_WIDTH ≤ b.rect_x + b.rect_w ∨
        SCREEN_HEIGHT ≤ b.rect_y + b.rect_h) →
      find_target_boundary_rect blobs ≠ some b) := by
  have key : ∀ t, find_target_boundary_rect blobs = some t →
      t ∈ blobs ∧ blob_accepted t = true ∧
      (∀ b ∈ blobs, blob_accepted b = true → b.rect_area ≤ t.rect_area) ∧
      ∃ l1 l2 : List Blob, blobs.filter blob_accepted = l1 ++ t :: l2 ∧
        ∀ b ∈ l1, b.rect_area < t.rect_area := by
    intro t ht
    unfold find_target_boundary_rect at ht
    cases hf : blobs.filter blob_accepted with
    | nil => rw [hf] at ht; cases ht
    | cons c cs =>
      rw [hf] at ht
      have htmax : py_max_by_area c cs = t := Option.some.inj ht
      obtain ⟨l1, l2, heq, hl1, hl2⟩ := py_max_by_area_spec c cs
      rw [htmax] at heq hl1 hl2
      have htf : t ∈ blobs.filter blob_accepted := by
        rw [hf, heq]
        exact List.mem_append.mpr (Or.inr (List.mem_cons_self t l2))
      have htm := List.mem_filter.mp htf
      refine ⟨htm.1, htm.2, ?_, l1, l2, heq, hl1⟩
      intro b hb hacc
      have hbf : b ∈ blobs.filter blob_accepted := List.mem_filter.mpr ⟨hb, hacc⟩
      rw [hf, heq] at hbf
      rcases List.mem_append.mp hbf with h | h
      · exact le_of_lt (hl1 b h)
      · rcases List.mem_cons.mp h with rfl | h2
        · exact le_refl _
        · exact hl2 b h2
  refine ⟨?_, key, ?_⟩
  · constructor
    · intro hn b hb
      cases hacc : blob_accepted b with
      | false => rfl
      | true =>
        have hbf : b ∈ blobs.filter blob_accepted := List.mem_filter.mpr ⟨hb, hacc⟩
        unfold find_target_boundary_rect at hn
        cases hf : blobs.filter blob_accepted with
        | nil => rw [hf] at hbf; cases hbf
        | cons c cs => rw [hf] at hn; cases hn
    · intro hall
      have hf : blobs.filter blob_accepted = [] := by
        rw [List.filter_eq_nil_iff]
        intro a ha
        rw [hall a ha]
        simp
      unfold find_target_boundary_rect
      rw [hf]
  · intro b hb hedge hfind
    have h2 := key b hfind
    rw [blob_accepted_edge_false b hedge] at h2
    cases h2.2.1

/-- A concrete edge-touching blob (`rect_x = 0`), otherwise identical to
`blobA`. -/
def blobE : Blob := ⟨0, 40, 100, 60, 2000, 320⟩

/-- A concrete accepted blob: 100×60 rectangle at (50, 40), 2000 filled
pixels, perimeter 320. -/
def blobA : Blob := ⟨50, 40, 100, 60, 2000, 320⟩

/-- A concrete accepted blob with the larger rectangle area: 120×80 at
(30, 30), 2500 filled pixels, perimeter 400. -/
def blobW : Blob := ⟨30, 30, 120, 80, 2500, 400⟩

/-- C3 witness: on the list `[blobE, blobA, blobW]` the selected target is a
member blob that passed the filters, and the edge-touching `blobE` is never
selected. -/
theorem find_target_spec_witness :
    blobW ∈ [blobE, blobA, blobW] ∧ blob_accepted blobW = true ∧
    find_target_boundary_rect [blobE, blobA, blobW] ≠ some blobE := by
  have hE : blob_accepted blobE = false := by
    simp only [blob_accepted, blobE]
    norm_num
  have hA : blob_accepted blobA = true := by
    simp only [blob_accepted, blobA, Blob.rect_area, SCREEN_WIDTH, SCREEN_HEIGHT]
    norm_num [mathPi]
  have hW : blob_accepted blobW = true := by
    simp only [blob_accepted, blobW, Blob.rect_area, SCREEN_WIDTH, SCREEN_HEIGHT]
    norm_num [mathPi]
  have hfilter : List.filter blob_accepted [blobE, blobA, blobW] = [blobA, blobW] := by
    simp [List.filter_cons, hE, hA, hW]
  have hfind : find_target_boundary_rect [blobE, blobA, blobW] = some blobW := by
    unfold find_target_boundary_rect
    rw [hfilter]
    norm_num [py_max_by_area, py_max_step, Blob.rect_area, blobA, blobW]
  have h := (find_target_spec [blobE, blobA, blobW]).2.1 blobW hfind
  have hedge := (find_target_spec [blobE, blobA, blobW]).2.2 blobE (by simp) (Or.inl rfl)
  exact ⟨h.1, h.2.1, hedge⟩

end FinalCode
